import Mathlib

/-!
# Verification of the calocapital_options spread scanner and P/S anomaly detector

Shallow embedding of the computational core of the repository:

* `src/options/debit_spreads.py` — the `DebitSpreadAnalyzer` pipeline
  (`_prepare_calls_data`, `build_call_debit_spreads`, `_calculate_spread_metrics`,
  `rank_spreads`, `_apply_filters`, `_calculate_scores`, `_create_summary`,
  `_sort_and_format`, `get_available_expirations`).
* `src/main.py` — `detect_ps_anomalies`.

Python floats are modelled by exact rationals (`ℚ`); the claims of the
specification are algebraic identities, filter/sort properties and control-flow
facts which hold exactly over `ℚ` and "within rounding tolerance" over IEEE
doubles.  `pandas.DataFrame`s become `List`s of structures whose fields carry
the column names (with `$`/`%` characters, illegal in Lean identifiers,
rendered as `_usd` / `pct`).  Pandas `round` / NumPy rounding is half-to-even,
modelled by `roundHalfEven` below.  A Python `raise` is modelled with
`Except`.  The sample standard deviation `Series.std()` is a square root and
is irrational in general, so `detect_ps_anomalies` receives it as an explicit
parameter constrained by `std ^ 2 = sampleVar ps ∧ 0 ≤ std` where needed;
rational division by zero is total (`x / 0 = 0`), whereas NumPy float division
by a zero standard deviation yields `inf`/`nan` — the structural fact verified
here is that the code performs that division unguarded.
-/

namespace CaloCapital

/-- Banker's rounding of a rational to the nearest integer, ties to even —
the rounding mode of Python's builtin `round` and of `pandas.DataFrame.round`
(NumPy half-to-even). -/
def roundHalfEven (x : ℚ) : ℤ :=
  if x - ⌊x⌋ < 1/2 then ⌊x⌋
  else if 1/2 < x - ⌊x⌋ then ⌊x⌋ + 1
  else if ⌊x⌋ % 2 = 0 then ⌊x⌋ else ⌊x⌋ + 1

/-- `round(x, d)` / `.round(d)`: banker's rounding to `d` decimal places. -/
def roundQ (d : ℕ) (x : ℚ) : ℚ :=
  (roundHalfEven (x * 10 ^ d) : ℚ) / 10 ^ d

/-! ## Data model: option quotes (`chain.calls` rows) -/

/-- One raw row of the `chain.calls` DataFrame as fetched from the provider.
Any of the four columns used by the scanner may be missing (`NaN`),
modelled with `Option`. -/
structure RawCallRow where
  contractSymbol : Option String
  strike : Option ℚ
  bid : Option ℚ
  ask : Option ℚ
deriving Repr, DecidableEq

/-- A cleaned call quote after `_prepare_calls_data`: all four columns present
and the derived `mid` column added. -/
structure PreparedCall where
  contractSymbol : String
  strike : ℚ
  bid : ℚ
  ask : ℚ
  mid : ℚ
deriving Repr, DecidableEq

/-- `_prepare_calls_data`: drop rows with a missing `bid`, `ask`, `strike` or
`contractSymbol`, then add `mid = (bid + ask) / 2`. -/
def prepareCallsData (calls_df : List RawCallRow) : List PreparedCall :=
  calls_df.filterMap fun r =>
    match r.contractSymbol, r.strike, r.bid, r.ask with
    | some c, some k, some b, some a =>
        some { contractSymbol := c, strike := k, bid := b, ask := a, mid := (b + a) / 2 }
    | _, _, _, _ => none

/-- One row of the spreads DataFrame built by `_calculate_spread_metrics`.
`max_loss_usd` / `max_profit_usd` are the source's `max_loss_$` /
`max_profit_$` columns; `pctToBE` is `%ToBE`. -/
structure SpreadRow where
  exp : String
  buy_call : String
  sell_call : String
  buyK : ℚ
  sellK : ℚ
  buy_mid : ℚ
  sell_mid : ℚ
  debit : ℚ
  max_loss_usd : ℚ
  max_profit_usd : ℚ
  breakeven : ℚ
  pctToBE : ℚ
  ROI_x : ℚ
deriving Repr, DecidableEq

/-- `_calculate_spread_metrics`: economics of a single candidate debit spread.
Returns `none` (Python `None`) for a non-positive debit or non-positive
maximum profit.  `spot` is `self.get_spot_price()`. -/
def calculateSpreadMetrics (spot : ℚ) (long_call short_call : PreparedCall)
    (expiration : String) : Option SpreadRow :=
  let debit := long_call.mid - short_call.mid
  if debit ≤ 0 then none
  else
    let width := short_call.strike - long_call.strike
    let max_profit := width - debit
    if max_profit ≤ 0 then none
    else
      let breakeven := long_call.strike + debit
      let pct_to_breakeven := (breakeven / spot - 1) * 100
      some { exp := expiration
             buy_call := long_call.contractSymbol
             sell_call := short_call.contractSymbol
             buyK := long_call.strike
             sellK := short_call.strike
             buy_mid := long_call.mid
             sell_mid := short_call.mid
             debit := debit
             max_loss_usd := debit * 100
             max_profit_usd := max_profit * 100
             breakeven := breakeven
             pctToBE := pct_to_breakeven
             ROI_x := max_profit / debit }

/-- `build_call_debit_spreads`: clean the calls table, then for every long
call pair it with every strictly-higher-strike short call and keep the valid
spreads (the nested `iterrows` loops with the
`calls[calls["strike"] > long_call["strike"]]` mask). -/
def buildCallDebitSpreads (spot : ℚ) (calls_df : List RawCallRow)
    (expiration : String) : List SpreadRow :=
  let calls := prepareCallsData calls_df
  calls.flatMap fun long_call =>
    (calls.filter fun short_call => long_call.strike < short_call.strike).filterMap
      fun short_call => calculateSpreadMetrics spot long_call short_call expiration

/-- The candidate-pair enumeration underlying the nested loops of
`build_call_debit_spreads`: every `(long, short)` pair of cleaned calls with
`long.strike < short.strike`, before spread economics are evaluated. -/
def enumerateCandidatePairs (calls : List PreparedCall) :
    List (PreparedCall × PreparedCall) :=
  calls.flatMap fun long_call =>
    (calls.filter fun short_call => long_call.strike < short_call.strike).map
      fun short_call => (long_call, short_call)

/-! ## Filtering, scoring, ranking -/

/-- `_apply_filters`: the three sequential boolean-mask filters. -/
def applyFilters (df : List SpreadRow) (max_pct_to_be max_loss_usd
    min_max_profit_usd : ℚ) : List SpreadRow :=
  let f1 := df.filter fun r => r.pctToBE ≤ max_pct_to_be
  let f2 := f1.filter fun r => r.max_loss_usd ≤ max_loss_usd
  f2.filter fun r => min_max_profit_usd ≤ r.max_profit_usd

/-- Fixed-width decimal rendering of a rational (Python `f"{x:.df}"`),
half-to-even as NumPy does. -/
def decimalString (d : ℕ) (x : ℚ) : String :=
  let n := roundHalfEven (x * 10 ^ d)
  let sign := if n < 0 then "-" else ""
  let m := n.natAbs
  if d = 0 then sign ++ toString m
  else
    let fs := toString (m % 10 ^ d)
    let fs := String.mk (List.replicate (d - fs.length) '0') ++ fs
    sign ++ toString (m / 10 ^ d) ++ "." ++ fs

/-- Signed rendering (Python `f"{x:+.1f}"`). -/
def signedDecimalString (d : ℕ) (x : ℚ) : String :=
  if 0 ≤ roundHalfEven (x * 10 ^ d) then "+" ++ decimalString d x
  else decimalString d x

/-- `_create_summary`: the human-readable summary string
(`int(...)` truncates strikes, which are positive, so `⌊·⌋` agrees). -/
def createSummary (row : SpreadRow) : String :=
  "Buy " ++ toString ⌊row.buyK⌋ ++ "C / Sell " ++ toString ⌊row.sellK⌋ ++ "C | " ++
  "Pay $" ++ decimalString 0 row.max_loss_usd ++ " to make up to $" ++
  decimalString 0 row.max_profit_usd ++ " | " ++
  "BE " ++ decimalString 2 row.breakeven ++
  " (need " ++ signedDecimalString 1 row.pctToBE ++ "%)"

/-- A spread row with the `score` and `summary` columns added by
`_calculate_scores`. -/
structure ScoredRow extends SpreadRow where
  score : ℚ
  summary : String
deriving Repr, DecidableEq

/-- `_calculate_scores`: `score = max_profit_$ / max_loss_$ − k · %ToBE`
plus the summary column. -/
def calculateScores (df : List SpreadRow) (k_pct_penalty : ℚ) : List ScoredRow :=
  df.map fun r =>
    { toSpreadRow := r
      score := r.max_profit_usd / r.max_loss_usd - k_pct_penalty * r.pctToBE
      summary := createSummary r }

/-- The comparator of `df.sort_values(["score", "max_loss_$"],
ascending=[False, True])`: higher score first, cheaper max loss first on
score ties. -/
def spreadLE (a b : ScoredRow) : Bool :=
  decide (b.score < a.score) ||
    (decide (a.score = b.score) && decide (a.max_loss_usd ≤ b.max_loss_usd))

/-- The sorting step of `_sort_and_format`. -/
def sortSpreads (df : List ScoredRow) : List ScoredRow :=
  df.mergeSort spreadLE

/-- One row of the final display DataFrame: the `display_columns` projection
of `_sort_and_format` (the intermediate `debit` column is dropped), with the
`rounding_rules` applied. -/
structure DisplayRow where
  exp : String
  buy_call : String
  sell_call : String
  buyK : ℚ
  sellK : ℚ
  buy_mid : ℚ
  sell_mid : ℚ
  max_loss_usd : ℚ
  max_profit_usd : ℚ
  breakeven : ℚ
  pctToBE : ℚ
  ROI_x : ℚ
  score : ℚ
  summary : String
deriving Repr, DecidableEq

/-- Column selection plus the `rounding_rules` dict of `_sort_and_format`:
`buy_mid`/`sell_mid` to 3 decimals, dollar fields, `breakeven`, `%ToBE` and
`ROI_x` to 2, `score` to 3. -/
def displayRow (r : ScoredRow) : DisplayRow :=
  { exp := r.exp
    buy_call := r.buy_call
    sell_call := r.sell_call
    buyK := r.buyK
    sellK := r.sellK
    buy_mid := roundQ 3 r.buy_mid
    sell_mid := roundQ 3 r.sell_mid
    max_loss_usd := roundQ 2 r.max_loss_usd
    max_profit_usd := roundQ 2 r.max_profit_usd
    breakeven := roundQ 2 r.breakeven
    pctToBE := roundQ 2 r.pctToBE
    ROI_x := roundQ 2 r.ROI_x
    score := roundQ 3 r.score
    summary := r.summary }

/-- `_sort_and_format`: sort, select the display columns, `head(top_n)`,
round.  (Column selection commutes with `head`, so the projection/rounding is
applied after the truncation, as `df[display_columns].head(top_n).round(...)`
does.) -/
def sortAndFormat (df : List ScoredRow) (top_n : ℕ) : List DisplayRow :=
  ((sortSpreads df).take top_n).map displayRow

/-- `rank_spreads`: filter, score, sort, truncate.  Empty input and an empty
post-filter set short-circuit to an empty result.  Python defaults:
`max_pct_to_be=25.0`, `max_loss_usd=250.0`, `min_max_profit_usd=300.0`,
`k_pct_penalty=0.08`, `top_n=20`. -/
def rank_spreads (spreads_df : List SpreadRow) (max_pct_to_be max_loss_usd
    min_max_profit_usd k_pct_penalty : ℚ) (top_n : ℕ) : List DisplayRow :=
  if spreads_df = [] then []
  else
    let filtered := applyFilters spreads_df max_pct_to_be max_loss_usd min_max_profit_usd
    if filtered = [] then []
    else sortAndFormat (calculateScores filtered k_pct_penalty) top_n

/-- `get_available_expirations`: `raise RuntimeError("No expiration dates
available")` when the provider returns no expirations, modelled with
`Except.error`. -/
def get_available_expirations (exps : List String) : Except String (List String) :=
  if exps = [] then .error "No expiration dates available" else .ok exps

/-! ## `detect_ps_anomalies` (src/main.py) -/

/-- Ascending sort of a rational series (pandas sorts values for
order statistics). -/
def sortSeries (l : List ℚ) : List ℚ :=
  l.mergeSort fun a b => decide (a ≤ b)

/-- `Series.quantile(q)` with pandas' default linear interpolation:
the value at fractional position `q · (n − 1)` of the sorted series.
`Series.median()` is `quantile(0.5)`. -/
def quantileQ (l : List ℚ) (q : ℚ) : ℚ :=
  let s := sortSeries l
  let pos := q * ((s.length : ℚ) - 1)
  let i := (⌊pos⌋).toNat
  match s.get? i, s.get? (i + 1) with
  | some a, some b => a + (b - a) * (pos - ⌊pos⌋)
  | some a, none => a
  | none, _ => 0

/-- `Series.mean()`: arithmetic mean. -/
def seriesMean (l : List ℚ) : ℚ := l.sum / l.length

/-- The square of `Series.std()` (sample variance, `ddof = 1`).  The standard
deviation itself is an irrational square root in general, so
`detect_ps_anomalies` takes it as a parameter tied to this definition by
`std ^ 2 = sampleVar ps ∧ 0 ≤ std`.  (For a single observation pandas yields
`NaN` from the `0/0`; rational division is total there.) -/
def sampleVar (l : List ℚ) : ℚ :=
  (l.map fun x => (x - seriesMean l) ^ 2).sum / ((l.length : ℚ) - 1)

/-- The statistics dict built by `detect_ps_anomalies` for a ticker with data. -/
structure PsStats where
  ticker : String
  count : ℕ
  mean : ℚ
  median : ℚ
  std : ℚ
  min_val : ℚ
  max_val : ℚ
  range_val : ℚ
  p25 : ℚ
  p75 : ℚ
  iqr : ℚ
  current : ℚ
  z_score_current : ℚ
  label : String
deriving Repr, DecidableEq

/-- Result of `detect_ps_anomalies`: either the `{"ticker": ..., "error":
"no data"}` marker or the statistics dict. -/
inductive PsResult where
  | noData (ticker : String)
  | stats (s : PsStats)
deriving Repr, DecidableEq

/-- `detect_ps_anomalies` (src/main.py): round the non-null P/S series to two
decimals, return the `"no data"` marker when it is empty, otherwise build the
statistics dict and label the current observation by the z-score
`z = (current − mean) / std` (the stored, rounded `std`; the division is not
guarded against `std = 0`).  `rawSeries` is the ticker's
`"Price to Sales Ratio (ttm)"` column in date order, nulls as `none`; `std`
is the exact value of `ps.std()`, passed as a parameter because a square root
is irrational in general. -/
def detect_ps_anomalies (ticker : String) (rawSeries : List (Option ℚ))
    (std : ℚ) : PsResult :=
  let ps := (rawSeries.filterMap id).map (roundQ 2)
  if ps = [] then .noData ticker
  else
    let mean := seriesMean ps
    let stdR := roundQ 2 std
    let current := roundQ 2 (ps.getLastD 0)
    let z := (current - mean) / stdR
    .stats
      { ticker := ticker
        count := ps.length
        mean := mean
        median := quantileQ ps (1/2)
        std := stdR
        min_val := roundQ 2 (ps.foldr min (ps.getLastD 0))
        max_val := roundQ 2 (ps.foldr max (ps.getLastD 0))
        range_val := roundQ 2 (ps.foldr max (ps.getLastD 0) - ps.foldr min (ps.getLastD 0))
        p25 := roundQ 2 (quantileQ ps (1/4))
        p75 := roundQ 2 (quantileQ ps (3/4))
        iqr := roundQ 2 (quantileQ ps (3/4) - quantileQ ps (1/4))
        current := current
        z_score_current := roundQ 2 z
        label :=
          if z ≤ -(3/2) then "undervalued"
          else if (3/2 : ℚ) ≤ z then "overvalued"
          else "normal" }

/-! ## The spec's worked scenario -/

/-- The calls table of the specification's scenario:
`(strike=100, bid=5.00, ask=5.20)` and `(strike=110, bid=1.00, ask=1.20)`. -/
def scenarioCalls : List RawCallRow :=
  [{ contractSymbol := some "C100", strike := some 100, bid := some 5, ask := some 5.20 },
   { contractSymbol := some "C110", strike := some 110, bid := some 1, ask := some 1.20 }]

/-- The single spread the scanner actually builds from `scenarioCalls` at
spot 105: mids are 5.10 and 1.10, so the debit is 4.00 (not the 4.10 the
spec's scenario lists). -/
def scenarioRow : SpreadRow :=
  { exp := "2026-01-16", buy_call := "C100", sell_call := "C110",
    buyK := 100, sellK := 110, buy_mid := 51/10, sell_mid := 11/10,
    debit := 4, max_loss_usd := 400, max_profit_usd := 600,
    breakeven := 104, pctToBE := -20/21, ROI_x := 3/2 }

/-- The scenario spread as scored by `_calculate_scores` with the default
penalty weight `k = 0.08`. -/
def scenarioScored : ScoredRow :=
  { toSpreadRow := scenarioRow
    score := scenarioRow.max_profit_usd / scenarioRow.max_loss_usd -
      0.08 * scenarioRow.pctToBE
    summary := createSummary scenarioRow }

/-! ## Helper lemmas -/

lemma scenario_build_eq :
    buildCallDebitSpreads 105 scenarioCalls "2026-01-16" = [scenarioRow] := by
  norm_num [buildCallDebitSpreads, prepareCallsData, calculateSpreadMetrics,
    scenarioCalls, scenarioRow, List.flatMap, List.filter, List.filterMap]

lemma mid_of_mem_prepareCallsData {calls_df : List RawCallRow} {q : PreparedCall}
    (h : q ∈ prepareCallsData calls_df) : q.mid = (q.bid + q.ask) / 2 := by
  rw [prepareCallsData, List.mem_filterMap] at h
  obtain ⟨r, -, hr⟩ := h
  rcases r with ⟨c, k, b, a⟩
  rcases c with - | c <;> rcases k with - | k <;> rcases b with - | b <;>
    rcases a with - | a <;> dsimp only at hr <;>
    first
      | (rw [Option.some_inj] at hr; subst hr; rfl)
      | exact absurd hr (by simp)

lemma calculateSpreadMetrics_some {spot : ℚ} {l s : PreparedCall} {e : String}
    {row : SpreadRow} (h : calculateSpreadMetrics spot l s e = some row) :
    0 < l.mid - s.mid ∧ 0 < (s.strike - l.strike) - (l.mid - s.mid) ∧
    row = { exp := e, buy_call := l.contractSymbol, sell_call := s.contractSymbol,
            buyK := l.strike, sellK := s.strike, buy_mid := l.mid, sell_mid := s.mid,
            debit := l.mid - s.mid,
            max_loss_usd := (l.mid - s.mid) * 100,
            max_profit_usd := ((s.strike - l.strike) - (l.mid - s.mid)) * 100,
            breakeven := l.strike + (l.mid - s.mid),
            pctToBE := ((l.strike + (l.mid - s.mid)) / spot - 1) * 100,
            ROI_x := ((s.strike - l.strike) - (l.mid - s.mid)) / (l.mid - s.mid) } := by
  simp only [calculateSpreadMetrics] at h
  split at h
  · exact absurd h (by simp)
  · split at h
    · exact absurd h (by simp)
    · refine ⟨by linarith [not_le.mp ‹¬l.mid - s.mid ≤ 0›], by
        linarith [not_le.mp ‹¬s.strike - l.strike - (l.mid - s.mid) ≤ 0›], ?_⟩
      exact (Option.some_inj.mp h).symm

lemma mem_buildCallDebitSpreads {spot : ℚ} {calls_df : List RawCallRow}
    {e : String} {row : SpreadRow}
    (h : row ∈ buildCallDebitSpreads spot calls_df e) :
    ∃ l ∈ prepareCallsData calls_df, ∃ s ∈ prepareCallsData calls_df,
      l.strike < s.strike ∧ calculateSpreadMetrics spot l s e = some row := by
  rw [buildCallDebitSpreads] at h
  simp only [List.mem_flatMap, List.mem_filterMap, List.mem_filter,
    decide_eq_true_eq] at h
  obtain ⟨l, hl, s, ⟨hs, hlt⟩, hm⟩ := h
  exact ⟨l, hl, s, hs, hlt, hm⟩

lemma le_roundHalfEven (x : ℚ) : ⌊x⌋ ≤ roundHalfEven x := by
  rw [roundHalfEven]
  split_ifs <;> omega

lemma roundHalfEven_le (x : ℚ) : roundHalfEven x ≤ ⌊x⌋ + 1 := by
  rw [roundHalfEven]
  split_ifs <;> omega

lemma roundHalfEven_mono {x y : ℚ} (h : x ≤ y) :
    roundHalfEven x ≤ roundHalfEven y := by
  rcases eq_or_lt_of_le (Int.floor_le_floor h : ⌊x⌋ ≤ ⌊y⌋) with heq | hlt
  · have hr : x - (⌊x⌋ : ℚ) ≤ y - (⌊x⌋ : ℚ) := by linarith
    rw [roundHalfEven, roundHalfEven, ← heq]
    split_ifs <;> first
      | omega
      | (exfalso; linarith)
  · calc roundHalfEven x ≤ ⌊x⌋ + 1 := roundHalfEven_le x
      _ ≤ ⌊y⌋ := hlt
      _ ≤ roundHalfEven y := le_roundHalfEven y

lemma roundQ_mono (d : ℕ) {x y : ℚ} (h : x ≤ y) : roundQ d x ≤ roundQ d y := by
  rw [roundQ, roundQ]
  have h1 : x * 10 ^ d ≤ y * 10 ^ d :=
    mul_le_mul_of_nonneg_right h (by positivity)
  have h2 : ((roundHalfEven (x * 10 ^ d) : ℚ)) ≤ (roundHalfEven (y * 10 ^ d) : ℚ) := by
    exact_mod_cast roundHalfEven_mono h1
  exact (div_le_div_iff_of_pos_right (by positivity)).mpr h2

lemma spreadLE_iff (a b : ScoredRow) :
    spreadLE a b = true ↔
      b.score < a.score ∨ (a.score = b.score ∧ a.max_loss_usd ≤ b.max_loss_usd) := by
  simp [spreadLE]

lemma spreadLE_trans (a b c : ScoredRow) (hab : spreadLE a b) (hbc : spreadLE b c) :
    spreadLE a c := by
  rw [spreadLE_iff] at hab hbc ⊢
  rcases hab with hab | ⟨hab, hab'⟩ <;> rcases hbc with hbc | ⟨hbc, hbc'⟩
  · exact Or.inl (lt_trans hbc hab)
  · exact Or.inl (hbc ▸ hab)
  · exact Or.inl (hab ▸ hbc)
  · exact Or.inr ⟨hab.trans hbc, hab'.trans hbc'⟩

lemma spreadLE_total (a b : ScoredRow) : spreadLE a b || spreadLE b a := by
  rw [Bool.or_eq_true, spreadLE_iff, spreadLE_iff]
  rcases lt_trichotomy a.score b.score with h | h | h
  · exact Or.inr (Or.inl h)
  · rcases le_total a.max_loss_usd b.max_loss_usd with h' | h'
    · exact Or.inl (Or.inr ⟨h, h'⟩)
    · exact Or.inr (Or.inr ⟨h.symm, h'⟩)
  · exact Or.inl (Or.inl h)

lemma roundQ_zero (d : ℕ) : roundQ d 0 = 0 := by
  norm_num [roundQ, roundHalfEven]

lemma label_cases (z : ℚ) :
    ((if z ≤ -(3/2) then "undervalued" else if (3/2 : ℚ) ≤ z then "overvalued"
        else "normal") = "overvalued" ↔ (3/2 : ℚ) ≤ z) ∧
    ((if z ≤ -(3/2) then "undervalued" else if (3/2 : ℚ) ≤ z then "overvalued"
        else "normal") = "undervalued" ↔ z ≤ -(3/2)) ∧
    ((if z ≤ -(3/2) then "undervalued" else if (3/2 : ℚ) ≤ z then "overvalued"
        else "normal") = "normal" ↔
      ¬((3/2 : ℚ) ≤ z) ∧ ¬(z ≤ -(3/2))) := by
  refine ⟨?_, ?_, ?_⟩ <;> split_ifs with h1 h2 <;> simp_all <;> linarith

lemma filterMap_id_replicate_some (n : ℕ) (c : ℚ) :
    (List.replicate n (some c)).filterMap id = List.replicate n c := by
  induction n with
  | zero => rfl
  | succ m ih => simp [List.replicate_succ, List.filterMap_cons, ih]

lemma sampleVar_replicate (n : ℕ) (x : ℚ) : sampleVar (List.replicate n x) = 0 := by
  rcases n with - | m
  · simp [sampleVar, seriesMean]
  · have hmean : seriesMean (List.replicate (m + 1) x) = x := by
      rw [seriesMean, List.sum_replicate, List.length_replicate, nsmul_eq_mul]
      field_simp
    rw [sampleVar, hmean]
    simp [List.map_replicate]

lemma length_enumerate_eq (outer inner : List PreparedCall) :
    (outer.flatMap fun l =>
      (inner.filter fun s => decide (l.strike < s.strike)).map fun s => (l, s)).length
    = (outer.map fun l =>
        inner.countP fun s => decide (l.strike < s.strike)).sum := by
  induction outer with
  | nil => rfl
  | cons x xs ih =>
      simp only [List.flatMap_cons, List.length_append, List.map_cons, List.sum_cons,
        List.length_map, ih, ← List.countP_eq_length_filter]

lemma sum_countP_cons_inner (outer : List PreparedCall) (a : PreparedCall)
    (inner : List PreparedCall) :
    (outer.map fun l => (a :: inner).countP fun s => decide (l.strike < s.strike)).sum
    = outer.countP (fun l => decide (l.strike < a.strike)) +
      (outer.map fun l => inner.countP fun s => decide (l.strike < s.strike)).sum := by
  induction outer with
  | nil => rfl
  | cons x xs ih =>
      rw [List.map_cons, List.sum_cons, ih]
      simp only [List.countP_cons, List.map_cons, List.sum_cons]
      split_ifs <;> omega

lemma countP_lt_add_countP_gt (a : PreparedCall) (t : List PreparedCall) :
    t.countP (fun s => decide (a.strike < s.strike)) +
      t.countP (fun s => decide (s.strike < a.strike)) ≤ t.length := by
  induction t with
  | nil => simp
  | cons x xs ih =>
      simp only [List.countP_cons, List.length_cons]
      split_ifs with h1 h2
      · exact absurd (lt_trans (of_decide_eq_true h1) (of_decide_eq_true h2))
          (lt_irrefl _)
      · omega
      · omega
      · omega

lemma two_mul_length_enumerate (calls : List PreparedCall) :
    2 * (enumerateCandidatePairs calls).length ≤
      calls.length * (calls.length - 1) := by
  induction calls with
  | nil => simp [enumerateCandidatePairs]
  | cons a t ih =>
      rw [enumerateCandidatePairs, length_enumerate_eq] at ih ⊢
      rw [List.map_cons, List.sum_cons, sum_countP_cons_inner, List.countP_cons]
      have h1 : ¬decide (a.strike < a.strike) = true := by simp
      rw [if_neg h1]
      have h2 := countP_lt_add_countP_gt a t
      have he : (t.length + 1) * (t.length + 1 - 1) =
          t.length * (t.length - 1) + 2 * t.length := by
        rcases t with - | ⟨b, t'⟩
        · rfl
        · simp only [List.length_cons, Nat.add_sub_cancel]
          ring
      simp only [List.length_cons]
      rw [he]
      linarith [ih, h2]

/-- **C1.** Every spread emitted by the scanner satisfies the defining
equations exactly: its legs come from the cleaned chain with
`mid = (bid + ask)/2`, and `debit = buy_mid − sell_mid`,
`max_loss_$ = debit × 100`, `max_profit_$ = (width − debit) × 100` (with
`width = sellK − buyK`), `breakeven = buyK + debit`,
`%ToBE = (breakeven/spot − 1) × 100`, and `ROI_x = (width − debit)/debit
= maxProfit/debit`. -/
theorem spread_derived_fields_equations (spot : ℚ) (calls_df : List RawCallRow)
    (e : String) (row : SpreadRow)
    (h : row ∈ buildCallDebitSpreads spot calls_df e) :
    (∃ l ∈ prepareCallsData calls_df, ∃ s ∈ prepareCallsData calls_df,
      row.buyK = l.strike ∧ row.sellK = s.strike ∧
      row.buy_mid = (l.bid + l.ask) / 2 ∧ row.sell_mid = (s.bid + s.ask) / 2) ∧
    row.debit = row.buy_mid - row.sell_mid ∧
    row.max_loss_usd = row.debit * 100 ∧
    row.max_profit_usd = (row.sellK - row.buyK - row.debit) * 100 ∧
    row.breakeven = row.buyK + row.debit ∧
    row.pctToBE = (row.breakeven / spot - 1) * 100 ∧
    row.ROI_x = (row.sellK - row.buyK - row.debit) / row.debit := by
  obtain ⟨l, hl, s, hs, -, hm⟩ := mem_buildCallDebitSpreads h
  obtain ⟨-, -, hrow⟩ := calculateSpreadMetrics_some hm
  subst hrow
  refine ⟨⟨l, hl, s, hs, rfl, rfl, mid_of_mem_prepareCallsData hl,
    mid_of_mem_prepareCallsData hs⟩, rfl, rfl, ?_, rfl, rfl, ?_⟩ <;> ring

/-- Witness for C1 at the spec's scenario (spot 105, strikes 100/110). -/
theorem spread_derived_fields_equations_witness :
    (∃ l ∈ prepareCallsData scenarioCalls, ∃ s ∈ prepareCallsData scenarioCalls,
      scenarioRow.buyK = l.strike ∧ scenarioRow.sellK = s.strike ∧
      scenarioRow.buy_mid = (l.bid + l.ask) / 2 ∧
      scenarioRow.sell_mid = (s.bid + s.ask) / 2) ∧
    scenarioRow.debit = scenarioRow.buy_mid - scenarioRow.sell_mid ∧
    scenarioRow.max_loss_usd = scenarioRow.debit * 100 ∧
    scenarioRow.max_profit_usd =
      (scenarioRow.sellK - scenarioRow.buyK - scenarioRow.debit) * 100 ∧
    scenarioRow.breakeven = scenarioRow.buyK + scenarioRow.debit ∧
    scenarioRow.pctToBE = (scenarioRow.breakeven / 105 - 1) * 100 ∧
    scenarioRow.ROI_x =
      (scenarioRow.sellK - scenarioRow.buyK - scenarioRow.debit) / scenarioRow.debit :=
  spread_derived_fields_equations 105 scenarioCalls "2026-01-16" scenarioRow
    (by rw [scenario_build_eq]; exact List.mem_singleton.mpr rfl)

/-- **C2.** Over a cleaned call side with `k` quotes the enumeration
underlying `build_call_debit_spreads` yields at most `k(k−1)/2` candidate
spreads, its candidates are exactly the pairs `(long, short)` from the chain
with `long.strike < short.strike`, and the scanner is that enumeration
followed by the spread valuator. -/
theorem enumerator_bound_and_membership (calls : List PreparedCall)
    (p : PreparedCall × PreparedCall) (spot : ℚ) (calls_df : List RawCallRow)
    (e : String) :
    (enumerateCandidatePairs calls).length ≤
      calls.length * (calls.length - 1) / 2 ∧
    (p ∈ enumerateCandidatePairs calls ↔
      p.1 ∈ calls ∧ p.2 ∈ calls ∧ p.1.strike < p.2.strike) ∧
    buildCallDebitSpreads spot calls_df e =
      (enumerateCandidatePairs (prepareCallsData calls_df)).filterMap
        fun q => calculateSpreadMetrics spot q.1 q.2 e := by
  refine ⟨?_, ?_, ?_⟩
  · rw [Nat.le_div_iff_mul_le (by norm_num)]
    have := two_mul_length_enumerate calls
    omega
  · obtain ⟨p1, p2⟩ := p
    simp only [enumerateCandidatePairs, List.mem_flatMap, List.mem_map,
      List.mem_filter, decide_eq_true_eq, Prod.mk.injEq]
    constructor
    · rintro ⟨l, hl, s, ⟨hs, hlt⟩, rfl, rfl⟩
      exact ⟨hl, hs, hlt⟩
    · rintro ⟨h1, h2, hlt⟩
      exact ⟨p1, h1, p2, ⟨h2, hlt⟩, rfl, rfl⟩
  · rw [buildCallDebitSpreads, enumerateCandidatePairs, List.filterMap_flatMap]
    simp only [List.filterMap_map]
    rfl

/-- **C3.** `_apply_filters` retains a spread iff it satisfies all three
thresholds (`%ToBE ≤ max_pct_to_be`, `max_loss_$ ≤ max_loss_usd`,
`max_profit_$ ≥ min_max_profit_usd`); its output is a sublist (hence subset)
of its input; and when no spread passes, `rank_spreads` returns the empty
ordered result rather than an error. -/
theorem filter_stage_thresholds (df : List SpreadRow)
    (max_pct_to_be max_loss_usd min_max_profit_usd k : ℚ) (top_n : ℕ)
    (r : SpreadRow) :
    (r ∈ applyFilters df max_pct_to_be max_loss_usd min_max_profit_usd ↔
      r ∈ df ∧ r.pctToBE ≤ max_pct_to_be ∧ r.max_loss_usd ≤ max_loss_usd ∧
        min_max_profit_usd ≤ r.max_profit_usd) ∧
    (applyFilters df max_pct_to_be max_loss_usd min_max_profit_usd).Sublist df ∧
    ((∀ x ∈ df, ¬(x.pctToBE ≤ max_pct_to_be ∧ x.max_loss_usd ≤ max_loss_usd ∧
        min_max_profit_usd ≤ x.max_profit_usd)) →
      rank_spreads df max_pct_to_be max_loss_usd min_max_profit_usd k top_n = []) := by
  have hmem : ∀ x : SpreadRow,
      x ∈ applyFilters df max_pct_to_be max_loss_usd min_max_profit_usd ↔
        x ∈ df ∧ x.pctToBE ≤ max_pct_to_be ∧ x.max_loss_usd ≤ max_loss_usd ∧
          min_max_profit_usd ≤ x.max_profit_usd := by
    intro x
    simp only [applyFilters, List.mem_filter, decide_eq_true_eq]
    tauto
  refine ⟨hmem r, ?_, ?_⟩
  · exact ((List.filter_sublist _).trans (List.filter_sublist _)).trans
      (List.filter_sublist _)
  · intro hfail
    have hempty : applyFilters df max_pct_to_be max_loss_usd min_max_profit_usd = [] := by
      rw [List.eq_nil_iff_forall_not_mem]
      intro x hx
      rw [hmem x] at hx
      exact hfail x hx.1 hx.2
    rw [rank_spreads]
    split
    · rfl
    · rw [if_pos hempty]

/-- Witness for C3: a spread needing a 100 % move to breakeven fails the
default thresholds, so the filter drops it and `rank_spreads` returns `[]`. -/
theorem filter_stage_thresholds_witness :
    (scenarioRow ∈ applyFilters [scenarioRow] 25 250 300 ↔
      scenarioRow ∈ [scenarioRow] ∧ scenarioRow.pctToBE ≤ 25 ∧
        scenarioRow.max_loss_usd ≤ 250 ∧ (300 : ℚ) ≤ scenarioRow.max_profit_usd) ∧
    (applyFilters [scenarioRow] 25 250 300).Sublist [scenarioRow] ∧
    rank_spreads [scenarioRow] 25 250 300 0.08 20 = [] := by
  have h := filter_stage_thresholds [scenarioRow] 25 250 300 0.08 20 scenarioRow
  refine ⟨h.1, h.2.1, h.2.2 ?_⟩
  intro x hx
  rw [List.mem_singleton] at hx
  subst hx
  norm_num [scenarioRow]

/-- **C4.** The ranker's result is sorted and truncated: along the sorted
sequence every adjacent pair has `score(a) ≥ score(b)`, with the cheaper max
loss first on score ties; the final result has at most `top_n` rows, its
adjacent displayed scores are still non-increasing, and it is exactly the
truncated sorted sequence with the fixed `rounding_rules` decimal precision
applied (`displayRow`). -/
theorem ranker_sorted_truncated_rounded (df : List ScoredRow) (top_n : ℕ) :
    (sortAndFormat df top_n).length ≤ top_n ∧
    List.Chain' (fun a b => b.score ≤ a.score ∧
        (a.score = b.score → a.max_loss_usd ≤ b.max_loss_usd))
      ((sortSpreads df).take top_n) ∧
    List.Chain' (fun a b : DisplayRow => b.score ≤ a.score)
      (sortAndFormat df top_n) ∧
    sortAndFormat df top_n = ((sortSpreads df).take top_n).map displayRow := by
  have hpair : ((sortSpreads df).take top_n).Pairwise
      (fun a b => spreadLE a b = true) :=
    List.Pairwise.sublist (List.take_sublist top_n _)
      (List.sorted_mergeSort spreadLE_trans spreadLE_total df)
  have hchain : List.Chain' (fun a b : ScoredRow => b.score ≤ a.score ∧
      (a.score = b.score → a.max_loss_usd ≤ b.max_loss_usd))
      ((sortSpreads df).take top_n) := by
    refine List.Pairwise.chain' (hpair.imp ?_)
    intro a b hab
    rw [spreadLE_iff] at hab
    rcases hab with hab | ⟨hab, hab'⟩
    · exact ⟨le_of_lt hab, fun heq => absurd (heq ▸ hab) (lt_irrefl _)⟩
    · exact ⟨le_of_eq hab.symm, fun _ => hab'⟩
  refine ⟨?_, hchain, ?_, rfl⟩
  · rw [sortAndFormat, List.length_map, List.length_take]
    exact min_le_left _ _
  · rw [sortAndFormat]
    exact List.chain'_map_of_chain' displayRow
      (fun a b hab => roundQ_mono 3 hab.1) hchain

/-- **C8 (counterexample).** On the spec's scenario chain
(`(100, bid 5.00, ask 5.20)`, `(110, bid 1.00, ask 1.20)`, spot 105) the
scanner's single spread has debit 4.00, not the 4.10 the claim states:
the mids are 5.10 and 1.10 and `5.10 − 1.10 = 4.00`. -/
theorem scenario_debit_not_410 :
    (buildCallDebitSpreads 105 scenarioCalls "2026-01-16").map SpreadRow.debit = [4] ∧
    (4 : ℚ) ≠ 4.10 := by
  rw [scenario_build_eq]
  norm_num [scenarioRow]

/-- **C8 (amended).** The scenario chain yields exactly one spread, with
debit 4.00, width 10, max profit 6.00 (`max_profit_$ = 600`,
`max_loss_$ = 400`), breakeven 104.00, roi 1.5, and
`%ToBE = (104/105 − 1) × 100 = −20/21`. -/
theorem scenario_spread_values :
    buildCallDebitSpreads 105 scenarioCalls "2026-01-16" = [scenarioRow] ∧
    scenarioRow.debit = 4 ∧ scenarioRow.sellK - scenarioRow.buyK = 10 ∧
    scenarioRow.max_profit_usd = 6 * 100 ∧ scenarioRow.breakeven = 104 ∧
    scenarioRow.ROI_x = 1.5 := by
  refine ⟨scenario_build_eq, ?_, ?_, ?_, ?_, ?_⟩ <;> norm_num [scenarioRow]

/-- **C5.** A candidate leg pair with non-positive debit or non-positive
maximum profit makes `_calculate_spread_metrics` return `None` (no result,
not an error), and consequently every spread emitted by
`build_call_debit_spreads` has a positive debit and a positive maximum
profit. -/
theorem degenerate_pairs_rejected (spot : ℚ) (l s : PreparedCall) (e : String)
    (calls_df : List RawCallRow) (row : SpreadRow) :
    ((l.mid - s.mid ≤ 0 ∨ s.strike - l.strike - (l.mid - s.mid) ≤ 0) →
      calculateSpreadMetrics spot l s e = none) ∧
    (row ∈ buildCallDebitSpreads spot calls_df e →
      0 < row.debit ∧ 0 < row.max_profit_usd) := by
  constructor
  · intro hdeg
    simp only [calculateSpreadMetrics]
    split
    · rfl
    · split
      · rfl
      · rcases hdeg with hdeg | hdeg
        · exact absurd hdeg ‹¬l.mid - s.mid ≤ 0›
        · exact absurd hdeg ‹¬s.strike - l.strike - (l.mid - s.mid) ≤ 0›
  · intro h
    obtain ⟨l', -, s', -, -, hm⟩ := mem_buildCallDebitSpreads h
    obtain ⟨hd, hp, hrow⟩ := calculateSpreadMetrics_some hm
    subst hrow
    exact ⟨hd, by positivity⟩

/-- Witness for C5: the inverted pair (long mid 1, short mid 2) is silently
dropped, and the scenario's emitted spread has positive debit and profit. -/
theorem degenerate_pairs_rejected_witness :
    calculateSpreadMetrics 105
      { contractSymbol := "A", strike := 100, bid := 1, ask := 1, mid := 1 }
      { contractSymbol := "B", strike := 110, bid := 2, ask := 2, mid := 2 }
      "2026-01-16" = none ∧
    (0 < scenarioRow.debit ∧ 0 < scenarioRow.max_profit_usd) :=
  ⟨(degenerate_pairs_rejected 105
      { contractSymbol := "A", strike := 100, bid := 1, ask := 1, mid := 1 }
      { contractSymbol := "B", strike := 110, bid := 2, ask := 2, mid := 2 }
      "2026-01-16" [] scenarioRow).1 (by norm_num),
   (degenerate_pairs_rejected 105
      { contractSymbol := "A", strike := 100, bid := 1, ask := 1, mid := 1 }
      { contractSymbol := "B", strike := 110, bid := 2, ask := 2, mid := 2 }
      "2026-01-16" scenarioCalls scenarioRow).2
    (by rw [scenario_build_eq]; exact List.mem_singleton.mpr rfl)⟩

/-- **C10.** For rows built by the scanner, `_calculate_scores` computes
`score = max_profit_$ / max_loss_$ − k · %ToBE = ROI_x − k · %ToBE`: the
dollar ratio collapses to the per-share ROI multiple because
`max_loss_$ = debit × 100` and `max_profit_$ = maxProfit × 100`. -/
theorem score_equals_roi_minus_penalty (spot : ℚ) (calls_df : List RawCallRow)
    (e : String) (k : ℚ) (df : List SpreadRow)
    (hdf : ∀ r ∈ df, r ∈ buildCallDebitSpreads spot calls_df e)
    (sr : ScoredRow) (hsr : sr ∈ calculateScores df k) :
    sr.score = sr.ROI_x - k * sr.pctToBE := by
  rw [calculateScores, List.mem_map] at hsr
  obtain ⟨r, hr, hsr⟩ := hsr
  obtain ⟨l, -, s, -, -, hm⟩ := mem_buildCallDebitSpreads (hdf r hr)
  obtain ⟨hd, -, hrow⟩ := calculateSpreadMetrics_some hm
  subst hrow hsr
  have h100 : (l.mid - s.mid) * 100 ≠ 0 := by positivity
  field_simp
  ring

/-- Witness for C10 at the spec's scenario with the default penalty weight. -/
theorem score_equals_roi_minus_penalty_witness :
    scenarioScored.score = scenarioScored.ROI_x - 0.08 * scenarioScored.pctToBE :=
  score_equals_roi_minus_penalty 105 scenarioCalls "2026-01-16" 0.08 [scenarioRow]
    (by intro r hr
        rw [List.mem_singleton] at hr
        subst hr
        rw [scenario_build_eq]
        exact List.mem_singleton.mpr rfl)
    scenarioScored
    (by simp [calculateScores, scenarioScored])

/-- **C6.** On every non-empty (post-cleaning) price-to-sales series the
detector returns a statistics record whose label is `"overvalued"` iff the
z-score `z = (current − mean)/std` (the stored fields: rounded current,
unrounded mean, rounded std) satisfies `z ≥ 1.5`, `"undervalued"` iff
`z ≤ −1.5`, and `"normal"` otherwise. -/
theorem zscore_labels (ticker : String) (rawSeries : List (Option ℚ)) (std : ℚ)
    (h : (rawSeries.filterMap id).map (roundQ 2) ≠ []) :
    ∃ s, detect_ps_anomalies ticker rawSeries std = .stats s ∧
      (s.label = "overvalued" ↔ (3/2 : ℚ) ≤ (s.current - s.mean) / s.std) ∧
      (s.label = "undervalued" ↔ (s.current - s.mean) / s.std ≤ -(3/2)) ∧
      (s.label = "normal" ↔ ¬((3/2 : ℚ) ≤ (s.current - s.mean) / s.std) ∧
        ¬((s.current - s.mean) / s.std ≤ -(3/2))) := by
  simp only [detect_ps_anomalies]
  rw [if_neg h]
  exact ⟨_, rfl, (label_cases _).1, (label_cases _).2.1, (label_cases _).2.2⟩

/-- Witness for C6: a one-point series has z-score 0 and label `"normal"`. -/
theorem zscore_labels_witness :
    ∃ s, detect_ps_anomalies "T" [some 10] 1 = .stats s ∧
      (s.label = "overvalued" ↔ (3/2 : ℚ) ≤ (s.current - s.mean) / s.std) ∧
      (s.label = "undervalued" ↔ (s.current - s.mean) / s.std ≤ -(3/2)) ∧
      (s.label = "normal" ↔ ¬((3/2 : ℚ) ≤ (s.current - s.mean) / s.std) ∧
        ¬((s.current - s.mean) / s.std ≤ -(3/2))) :=
  zscore_labels "T" [some 10] 1 (by simp)

/-- **C7 (counterexample).** The "no option expirations" condition is *not*
reported as an empty/"no data" result: `get_available_expirations` raises
(`RuntimeError`, modelled as `Except.error`), contradicting the claim that
no missing-data condition causes a crash. -/
theorem no_expirations_raises :
    get_available_expirations [] = Except.error "No expiration dates available" := rfl

/-- **C7 (amended).** Missing price history (empty cleaned series) yields the
`"no data"` marker and no quotes surviving cleaning yields an empty spread
table, both without raising; but the no-option-expirations condition raises
a `RuntimeError` instead of returning an empty result. -/
theorem missing_data_handling_amended (ticker : String) (std spot : ℚ)
    (calls_df : List RawCallRow) (e : String) (exps : List String)
    (rawSeries : List (Option ℚ)) :
    ((rawSeries.filterMap id).map (roundQ 2) = [] →
      detect_ps_anomalies ticker rawSeries std = .noData ticker) ∧
    (prepareCallsData calls_df = [] → buildCallDebitSpreads spot calls_df e = []) ∧
    (exps = [] → get_available_expirations exps =
      Except.error "No expiration dates available") ∧
    (exps ≠ [] → get_available_expirations exps = Except.ok exps) := by
  refine ⟨?_, ?_, ?_, ?_⟩
  · intro hps
    simp only [detect_ps_anomalies]
    rw [if_pos hps]
  · intro hprep
    simp [buildCallDebitSpreads, hprep]
  · intro hexps
    simp [get_available_expirations, hexps]
  · intro hexps
    simp [get_available_expirations, hexps]

/-- Witness for C7 (amended): an empty series, an all-null calls table, and
both sides of the expirations check, at concrete inputs. -/
theorem missing_data_handling_amended_witness :
    detect_ps_anomalies "T" [] 0 = .noData "T" ∧
    buildCallDebitSpreads 0
      [{ contractSymbol := none, strike := none, bid := none, ask := none }] "e" = [] ∧
    get_available_expirations [] = Except.error "No expiration dates available" ∧
    get_available_expirations ["2026-01-16"] = Except.ok ["2026-01-16"] :=
  ⟨(missing_data_handling_amended "T" 0 0 [] "e" [] []).1 rfl,
   (missing_data_handling_amended "T" 0 0
      [{ contractSymbol := none, strike := none, bid := none, ask := none }]
      "e" [] []).2.1 rfl,
   (missing_data_handling_amended "T" 0 0 [] "e" [] []).2.2.1 rfl,
   (missing_data_handling_amended "T" 0 0 [] "e" ["2026-01-16"] []).2.2.2 (by simp)⟩

/-- **C9.** On a non-empty constant price-to-sales series (at least two
observations, so the sample standard deviation is exactly zero) the detector
takes no guarded branch: it returns an ordinary statistics record whose
stored `std` is `0` and whose z-score field is computed by the unguarded
division `(current − mean) / 0` (over `ℚ` this total division returns `0`;
over NumPy floats it is the `inf`/`nan` the spec describes). -/
theorem constant_series_divides_by_zero (ticker : String) (c std : ℚ) (n : ℕ)
    (hn : 2 ≤ n) (hstd0 : 0 ≤ std)
    (hstd : std ^ 2 =
      sampleVar (((List.replicate n (some c)).filterMap id).map (roundQ 2))) :
    ∃ s, detect_ps_anomalies ticker (List.replicate n (some c)) std = .stats s ∧
      s.std = 0 ∧ s.z_score_current = roundQ 2 ((s.current - s.mean) / 0) := by
  have hfm : ((List.replicate n (some c)).filterMap id).map (roundQ 2)
      = List.replicate n (roundQ 2 c) := by
    rw [filterMap_id_replicate_some, List.map_replicate]
  have hstd' : std = 0 := by
    have h0 : std ^ 2 = 0 := by rw [hstd, hfm, sampleVar_replicate]
    exact (pow_eq_zero_iff two_ne_zero).mp h0
  subst hstd'
  have hne : List.replicate n (roundQ 2 c) ≠ [] := by
    apply List.ne_nil_of_length_pos
    rw [List.length_replicate]
    omega
  simp only [detect_ps_anomalies, hfm]
  rw [if_neg hne]
  refine ⟨_, rfl, ?_, ?_⟩
  · exact roundQ_zero 2
  · simp only [roundQ_zero 2]

/-- Witness for C9: the constant two-point series `[10, 10]`. -/
theorem constant_series_divides_by_zero_witness :
    ∃ s, detect_ps_anomalies "T" (List.replicate 2 (some 10)) 0 = .stats s ∧
      s.std = 0 ∧ s.z_score_current = roundQ 2 ((s.current - s.mean) / 0) :=
  constant_series_divides_by_zero "T" 10 0 2 (by norm_num) le_rfl
    (by rw [filterMap_id_replicate_some, List.map_replicate, sampleVar_replicate]
        norm_num)

end CaloCapital
